import Mathlib

/-
Verification of the rust_httpx shim (src/python/rust_httpx/__init__.py) and of
the spec-level model of the native transport engine it wraps.

The Python shim is embedded shallowly: dynamically-typed values that the shim
inspects with isinstance are modelled by small sum types, module-level globals
by an explicit ModuleState threaded through every exported operation, and the
opaque native extension by an executor function parameter plus a spec-level
engine state (connection pool and accepting flag).
-/

namespace RustHttpx

/- ### Python values the shim inspects -/

/-- A Python value arriving as `request.url`.  The shim only distinguishes
str, bytes and "anything else" (for example an httpcore.URL object); for the
object case the stored string is the value's `str()` rendering. -/
inductive PyUrl where
  | pystr (s : String)
  | pybytes (b : String)
  | pyobj (s : String)
deriving DecidableEq

/-- Python `str(url)`.  `str` of a str is itself; for a bytes value Python
renders a `b` repr (quoting is abstracted, no claim depends on it); for any
other object we store its `str()` form directly. -/
def PyUrl.toStr : PyUrl → String
  | .pystr s => s
  | .pybytes b => "b" ++ b
  | .pyobj s => s

/-- `isinstance(url, (str, bytes))` from lines 55 and 111 of the shim. -/
def PyUrl.isStrOrBytes : PyUrl → Bool
  | .pystr _ => true
  | .pybytes _ => true
  | .pyobj _ => false

/-- Spec-side reading of "the url is a str or bytes". -/
def PyUrl.isStrOrBytesP (u : PyUrl) : Prop :=
  (∃ s, u = .pystr s) ∨ (∃ b, u = .pybytes b)

/-- A Python value arriving as `request.method`: a str, a bytes/bytearray
(stored by its utf-8 decoding), or any other object. -/
inductive PyMethod where
  | pystr (s : String)
  | pybytes (b : String)
  | pyobj (s : String)
deriving DecidableEq

/-- `isinstance(method, str)` from lines 55 and 111 of the shim. -/
def PyMethod.isStr : PyMethod → Bool
  | .pystr _ => true
  | _ => false

/-- Spec-side reading of "the method is a str". -/
def PyMethod.isStrP (m : PyMethod) : Prop := ∃ s, m = .pystr s

/-- `request.method.decode() if isinstance(request.method, (bytes, bytearray))
else request.method` (lines 58-60 and 114-116 of the shim). -/
def decodeMethod : PyMethod → PyMethod
  | .pybytes b => .pystr b
  | m => m

/- ### Request and response descriptors -/

/-- The fields of an httpcore.Request that the shim reads or rebuilds.  The
body stream is an opaque object handle; headers and extensions are carried
verbatim. -/
structure Request where
  method : PyMethod
  url : PyUrl
  headers : List (String × String)
  stream : Nat
  extensions : List (String × String)
deriving DecidableEq

/-- Modelled from the spec: the ResponseDescriptor of section 3 (the native
extension's httpcore.Response is not in src/).  Status, ordered headers, and
the body's chunk boundaries. -/
structure ResponseDescriptor where
  status : Nat
  headers : List (String × String)
  bodyChunks : List String
deriving DecidableEq

/- ### Module-level state of rust_httpx -/

/-- Outcome of `from ._rust_httpx import ...` at module load time (line 16):
either the native extension imports and reports its `__version__`, or else
the attempt raises an ImportError carrying a message. -/
inductive ImportOutcome where
  | ok (version : String)
  | failed (err : String)
deriving DecidableEq

/-- The module-level globals set by the try/except at lines 15-26. -/
structure ModuleState where
  rust_available : Bool
  import_error : Option String
  version : String
deriving DecidableEq

/-- The module body around the native import (lines 15-26): the try/except
catches the ImportError, so loading yields a ModuleState for every outcome;
an uncaught exception would be an `Except.error`. -/
def loadModule : ImportOutcome → Except String ModuleState
  | .ok v =>
      .ok { rust_available := true, import_error := none, version := v }
  | .failed e =>
      .ok { rust_available := false, import_error := some e, version := "0.1.0" }

/-- Python `str()` applied to the `_IMPORT_ERROR` global: `str(None)` is the
text "None", otherwise the recorded message. -/
def pyStrOfExc : Option String → String
  | some e => e
  | none => "None"

/-- The ImportError message built at lines 46-49 and 102-105: a fixed text
ending with the f-string interpolation of `_IMPORT_ERROR`. -/
def availErrMsg (ie : Option String) : String :=
  "Rust extension not available. Please ensure the rust-httpx-transport " ++
  "package is properly installed. Original error: " ++ pyStrOfExc ie

/- ### Spec-level model of the native engine's connection pool -/

/-- Modelled from the spec: the PooledConnection states of section 3 (the
pool lives in the native extension, absent from src/), plus `unborn` for
connection ids not yet established. -/
inductive ConnState where
  | unborn
  | idle
  | inUse
  | broken
  | closed
deriving DecidableEq

/-- Modelled from the spec: the (scheme, host, port) PoolKey of section 3. -/
structure PoolKey where
  scheme : String
  host : String
  port : Nat
deriving DecidableEq

/-- Modelled from the spec: the pool bookkeeping of section 4.1.  Connections
are named by Nat ids; `connState` gives each id's lifecycle state, `idle`
lists the idle connections most-recently-released first together with their
key, and `nextId` is the next fresh id. -/
structure PoolState where
  connState : Nat → ConnState
  idle : List (PoolKey × Nat)
  nextId : Nat

/-- The empty pool: no connection established yet. -/
def PoolState.empty : PoolState :=
  { connState := fun _ => ConnState.unborn, idle := [], nextId := 0 }

/-- Pointwise update of the connection-state map. -/
def setConn (f : Nat → ConnState) (i : Nat) (st : ConnState) : Nat → ConnState :=
  fun j => if j = i then st else f j

/-- Remove the first entry with the given key from an idle list, returning its
connection id and the remaining list. -/
def popKey (k : PoolKey) : List (PoolKey × Nat) → Option (Nat × List (PoolKey × Nat))
  | [] => none
  | e :: rest =>
      if e.1 = k then some (e.2, rest)
      else
        match popKey k rest with
        | none => none
        | some (c, l) => some (c, e :: l)

/-- The ids idle under a given key, most recently released first. -/
def idleFor (s : PoolState) (k : PoolKey) : List Nat :=
  (s.idle.filter (fun e => e.1 == k)).map Prod.snd

/-- Modelled from the spec: `acquire(key)` of section 4.1 — pop the most
recently released idle connection for the key if one exists, otherwise
establish a fresh connection; the returned connection becomes InUse. -/
def acquirePool (s : PoolState) (k : PoolKey) : Nat × PoolState :=
  match popKey k s.idle with
  | some (c, rest) =>
      (c, { s with idle := rest, connState := setConn s.connState c ConnState.inUse })
  | none =>
      (s.nextId,
       { s with connState := setConn s.connState s.nextId ConnState.inUse,
                nextId := s.nextId + 1 })

/-- Modelled from the spec: the first half of `release(connection)` of
section 4.1 — the connection goes InUse to Idle and is inserted at the front
of its key's idle set (most recently released first). -/
def pushIdle (s : PoolState) (k : PoolKey) (c : Nat) : PoolState :=
  { s with idle := (k, c) :: s.idle, connState := setConn s.connState c ConnState.idle }

/-- Modelled from the spec: the capacity bound of section 4.1 — if a key's
idle set exceeds the configured capacity, the oldest idle connection for
that key (the last such entry) is dropped from the idle list and closed. -/
def capSweep (cap : Nat) (s1 : PoolState) (k : PoolKey) : PoolState :=
  if cap < (idleFor s1 k).length then
    match popKey k s1.idle.reverse with
    | some (d, rest) =>
        { s1 with idle := rest.reverse, connState := setConn s1.connState d ConnState.closed }
    | none => s1
  else s1

/-- Modelled from the spec: `release(connection)` of section 4.1 — insert the
released connection at the front of its key's idle set, then enforce the
per-key capacity bound. -/
def releasePool (cap : Nat) (s : PoolState) (k : PoolKey) (c : Nat) : PoolState :=
  capSweep cap (pushIdle s k c) k

/-- Modelled from the spec: `evict(connection)` of sections 4.1 and 7 — the
connection transitions to Broken and is removed from every idle tracking set
before the error is surfaced, so it never re-enters any Idle set. -/
def evictPool (s : PoolState) (c : Nat) : PoolState :=
  { s with idle := s.idle.filter (fun e => !(e.2 == c)),
           connState := setConn s.connState c ConnState.broken }

/-- Modelled from the spec: the shutdown controller of section 4.4 closing
all idle connections — every id in the idle list becomes Closed and the idle
list empties. -/
def closeIdlePool (s : PoolState) : PoolState :=
  { s with idle := [],
           connState := fun i =>
             if s.idle.any (fun e => e.2 == i) then ConnState.closed else s.connState i }

/-- Modelled from the spec: the TransportHandle of section 3 owning the pool,
with the accepting flag the shutdown controller of section 4.4 clears. -/
structure EngineState where
  pool : PoolState
  accepting : Bool

/-- Modelled from the spec: a freshly constructed engine — empty pool,
accepting requests.  This is what `_SyncTransport()` / `_AsyncTransport()`
produce. -/
def EngineState.fresh : EngineState :=
  { pool := PoolState.empty, accepting := true }

/-- Modelled from the spec: the native `close()` of section 4.4 — stop
accepting new acquires and close all idle connections.  (The grace-period
drain of in-flight requests is a real-time notion; its post-drain effect on
the pool is what is modelled.) -/
def EngineState.close (e : EngineState) : EngineState :=
  { accepting := false, pool := closeIdlePool e.pool }

/- ### The shim transports -/

/-- The shim's AsyncTransport: its only attribute is `self._transport`, the
native transport object (line 51). -/
structure AsyncTransport where
  native : EngineState

/-- The shim's SyncTransport: its only attribute is `self._transport`, the
native transport object (line 107). -/
structure SyncTransport where
  native : EngineState

/-- `AsyncTransport.__init__` (lines 44-51): raise ImportError when
`_RUST_AVAILABLE` is false, otherwise store a fresh native transport.  The
module globals are threaded and returned unchanged. -/
def AsyncTransport.init (st : ModuleState) :
    Except String AsyncTransport × ModuleState :=
  (if !st.rust_available then
     Except.error (availErrMsg st.import_error)
   else
     Except.ok { native := EngineState.fresh }, st)

/-- `SyncTransport.__init__` (lines 100-107): raise ImportError when
`_RUST_AVAILABLE` is false, otherwise store a fresh native transport.  The
module globals are threaded and returned unchanged. -/
def SyncTransport.init (st : ModuleState) :
    Except String SyncTransport × ModuleState :=
  (if !st.rust_available then
     Except.error (availErrMsg st.import_error)
   else
     Except.ok { native := EngineState.fresh }, st)

/-- The isinstance test guarding the conversion branch in both handle methods
(lines 55 and 111):
`not isinstance(request.url, (str, bytes)) or not isinstance(request.method, str)`. -/
def rebuildCond (r : Request) : Bool :=
  !r.url.isStrOrBytes || !r.method.isStr

/-- The request `AsyncTransport.handle_async_request` forwards to the native
extension (lines 55-68): when the guard holds the request is rebuilt with the
decoded method, the stringified url, an empty header list, the original body
stream as content and the original extensions; otherwise it is passed
through. -/
def AsyncTransport.forwardedRequest (r : Request) : Request :=
  if rebuildCond r then
    { method := decodeMethod r.method,
      url := PyUrl.pystr r.url.toStr,
      headers := [],
      stream := r.stream,
      extensions := r.extensions }
  else r

/-- The request `SyncTransport.handle_request` forwards to the native
extension (lines 111-124): same duplicated logic as the async method. -/
def SyncTransport.forwardedRequest (r : Request) : Request :=
  if rebuildCond r then
    { method := decodeMethod r.method,
      url := PyUrl.pystr r.url.toStr,
      headers := [],
      stream := r.stream,
      extensions := r.extensions }
  else r

/-- `AsyncTransport.handle_async_request` (lines 53-69): possibly rebuild the
request, then delegate to the native executor.  The executor itself is not in
src/; per sections 4.2-4.3 of the spec it is one deterministic function of
the request descriptor shared by both calling modes, taken here as the
parameter `execute`.  The module globals are threaded and returned
unchanged. -/
def AsyncTransport.handle_async_request (st : ModuleState)
    (execute : Request → ResponseDescriptor) (t : AsyncTransport) (r : Request) :
    ResponseDescriptor × ModuleState :=
  (execute (AsyncTransport.forwardedRequest r), st)

/-- `SyncTransport.handle_request` (lines 109-125): possibly rebuild the
request, then delegate to the same native executor, blocking instead of
suspending. -/
def SyncTransport.handle_request (st : ModuleState)
    (execute : Request → ResponseDescriptor) (t : SyncTransport) (r : Request) :
    ResponseDescriptor × ModuleState :=
  (execute (SyncTransport.forwardedRequest r), st)

/-- `AsyncTransport.aclose` (lines 71-73): delegate to the native close. -/
def AsyncTransport.aclose (st : ModuleState) (t : AsyncTransport) :
    AsyncTransport × ModuleState :=
  ({ native := EngineState.close t.native }, st)

/-- `SyncTransport.close` (lines 127-129): delegate to the native close. -/
def SyncTransport.close (st : ModuleState) (t : SyncTransport) :
    SyncTransport × ModuleState :=
  ({ native := EngineState.close t.native }, st)

/-- `AsyncTransport.__aenter__` (lines 78-79): return self. -/
def AsyncTransport.aenter (t : AsyncTransport) : AsyncTransport := t

/-- `SyncTransport.__enter__` (lines 134-135): return self. -/
def SyncTransport.enter (t : SyncTransport) : SyncTransport := t

/-- The calls a shim method body can make on its own transport; used to count
how many times the exit methods invoke close. -/
inductive ShimOp where
  | closeCall
deriving DecidableEq, BEq

/-- Body of `AsyncTransport.__aexit__` (lines 81-82) as the list of transport
calls it performs for the given (exc_type, exc, tb) arguments: the single
unconditional `await self.aclose()`. -/
def AsyncTransport.aexitBody (ty v tb : Option String) : List ShimOp :=
  [ShimOp.closeCall]

/-- Body of `SyncTransport.__exit__` (lines 137-138) as the list of transport
calls it performs: the single unconditional `self.close()`. -/
def SyncTransport.exitBody (ty v tb : Option String) : List ShimOp :=
  [ShimOp.closeCall]

/-- Execute a list of async transport calls, threading transport and module
state. -/
def AsyncTransport.runOps (st : ModuleState) (t : AsyncTransport) :
    List ShimOp → AsyncTransport × ModuleState
  | [] => (t, st)
  | ShimOp.closeCall :: ops =>
      let p := AsyncTransport.aclose st t
      AsyncTransport.runOps p.2 p.1 ops

/-- Execute a list of sync transport calls, threading transport and module
state. -/
def SyncTransport.runOps (st : ModuleState) (t : SyncTransport) :
    List ShimOp → SyncTransport × ModuleState
  | [] => (t, st)
  | ShimOp.closeCall :: ops =>
      let p := SyncTransport.close st t
      SyncTransport.runOps p.2 p.1 ops

/- ### Module-level query functions -/

/-- The mapping returned by `get_version_info` (lines 148-153). -/
structure VersionInfo where
  version : String
  rust_available : Bool
  import_error : Option String
  python_version : String
deriving DecidableEq

/-- `is_available` (lines 141-143): read `_RUST_AVAILABLE`.  The module
globals are threaded and returned unchanged. -/
def is_available (st : ModuleState) : Bool × ModuleState :=
  (st.rust_available, st)

/-- `get_version_info` (lines 146-153): build the info mapping from the
module globals and `sys.version_info` (the parameter `pv`). -/
def get_version_info (st : ModuleState) (pv : String) :
    VersionInfo × ModuleState :=
  ({ version := st.version,
     rust_available := st.rust_available,
     import_error := if !st.rust_available then some (pyStrOfExc st.import_error) else none,
     python_version := pv }, st)

/- ### Pool transition system (spec sections 4.1, 4.4, 7) -/

/-- Modelled from the spec: the pool's atomic transitions — acquire for a
key, release of an InUse connection, eviction of an InUse connection after a
fault, and shutdown closing every idle connection. -/
inductive Step (cap : Nat) : PoolState → PoolState → Prop where
  | acquire (s : PoolState) (k : PoolKey) : Step cap s (acquirePool s k).2
  | release (s : PoolState) (k : PoolKey) (c : Nat)
      (h : s.connState c = ConnState.inUse) : Step cap s (releasePool cap s k c)
  | evict (s : PoolState) (c : Nat)
      (h : s.connState c = ConnState.inUse) : Step cap s (evictPool s c)
  | closeAll (s : PoolState) : Step cap s (closeIdlePool s)

/-- Pool states reachable from the empty pool. -/
inductive Reachable (cap : Nat) : PoolState → Prop where
  | init : Reachable cap PoolState.empty
  | step {s t : PoolState} : Reachable cap s → Step cap s t → Reachable cap t

/-- Zero or more pool transitions. -/
inductive Steps (cap : Nat) : PoolState → PoolState → Prop where
  | refl (s : PoolState) : Steps cap s s
  | tail {s t u : PoolState} : Steps cap s t → Step cap t u → Steps cap s u

/-- The pool invariant: every idle-listed connection is in state Idle, ids at
or above `nextId` are unborn, and no id appears twice in the idle list. -/
structure Inv (s : PoolState) : Prop where
  idle_idle : ∀ k c, (k, c) ∈ s.idle → s.connState c = ConnState.idle
  unborn_ge : ∀ i, s.nextId ≤ i → s.connState i = ConnState.unborn
  ids_nodup : (s.idle.map Prod.snd).Nodup

/-- The failing request for the header-forwarding claim: the shape httpx and
httpcore actually hand to the transport — a bytes method, a URL object, and a
caller-supplied header (the same header the repository's own
test_custom_headers expects to reach the server). -/
def c1Request : Request :=
  { method := PyMethod.pybytes "GET",
    url := PyUrl.pyobj "https://httpbin.org/headers",
    headers := [("Custom-Header", "test-value")],
    stream := 0,
    extensions := [] }

/-- A concrete request exercising the conversion branch: str method, URL
object, one header, nonempty extensions. -/
def branchDemoRequest : Request :=
  { method := PyMethod.pystr "GET",
    url := PyUrl.pyobj "http://127.0.0.1:8000",
    headers := [("Accept", "text/plain")],
    stream := 7,
    extensions := [("timeout", "5")] }

/-- A concrete pool key for the pool-invariant witness. -/
def demoKey : PoolKey := { scheme := "http", host := "localhost", port := 80 }

/-- Pool after establishing one connection for `demoKey` from the empty
pool: connection 0 is InUse. -/
def poolDemo1 : PoolState := (acquirePool PoolState.empty demoKey).2

/-- Pool after that connection hits an I/O error and is evicted: connection 0
is Broken. -/
def poolDemo2 : PoolState := evictPool poolDemo1 0

/- ### Theorems -/

/-- Closing an already swept pool changes nothing: the idle list is empty, so
the sweep touches no connection state. -/
lemma closeIdlePool_idem (s : PoolState) :
    closeIdlePool (closeIdlePool s) = closeIdlePool s := rfl

/-- The module state recorded when the native import fails with message e. -/
def failedState (e : String) : ModuleState :=
  { rust_available := false, import_error := some e, version := "0.1.0" }

/-- The native engine close is idempotent. -/
lemma engineClose_idem (e : EngineState) :
    EngineState.close (EngineState.close e) = EngineState.close e := by
  cases e with
  | mk p acc =>
    simp only [EngineState.close]
    rw [closeIdlePool_idem]

/-- Claim C3: importing rust_httpx never fails on a missing native
extension — for every outcome of the native import the module body yields a
ModuleState, and on import failure that state records rust_available false,
the raised error, and the fallback version "0.1.0". -/
theorem loadModule_total_and_fallback (o : ImportOutcome) :
    ∃ st : ModuleState, loadModule o = Except.ok st ∧
      (∀ e, o = ImportOutcome.failed e →
        st.rust_available = false ∧ st.import_error = some e ∧ st.version = "0.1.0") := by
  cases o with
  | ok v =>
      refine ⟨_, rfl, ?_⟩
      intro e he
      cases he
  | failed e =>
      refine ⟨_, rfl, ?_⟩
      intro e2 he
      cases he
      exact ⟨rfl, rfl, rfl⟩

/-- Claim C3 witness: at the concrete failed import "boom" the module loads
and records the fallback state. -/
theorem loadModule_total_and_fallback_witness :
    ∃ st : ModuleState, loadModule (ImportOutcome.failed "boom") = Except.ok st ∧
      (∀ e, ImportOutcome.failed "boom" = ImportOutcome.failed e →
        st.rust_available = false ∧ st.import_error = some e ∧ st.version = "0.1.0") :=
  loadModule_total_and_fallback (ImportOutcome.failed "boom")

/-- Claim C2: transport construction consults the availability outcome and
nothing else ever does — on a successful import both constructors succeed, on
a failed import both raise an ImportError whose message ends with the
recorded original error, and the handle methods' results are independent of
the module globals (availability is never re-checked per request). -/
theorem construction_gates_on_availability (o : ImportOutcome) (st : ModuleState)
    (h : loadModule o = Except.ok st) :
    (∀ v, o = ImportOutcome.ok v →
       (AsyncTransport.init st).1 = Except.ok { native := EngineState.fresh } ∧
       (SyncTransport.init st).1 = Except.ok { native := EngineState.fresh }) ∧
    (∀ e, o = ImportOutcome.failed e →
       (AsyncTransport.init st).1 = Except.error (availErrMsg (some e)) ∧
       (SyncTransport.init st).1 = Except.error (availErrMsg (some e)) ∧
       ∃ p, availErrMsg (some e) = p ++ e) ∧
    (∀ st1 st2 execute t r,
       (SyncTransport.handle_request st1 execute t r).1 =
         (SyncTransport.handle_request st2 execute t r).1) ∧
    (∀ st1 st2 execute t r,
       (AsyncTransport.handle_async_request st1 execute t r).1 =
         (AsyncTransport.handle_async_request st2 execute t r).1) := by
  refine ⟨?_, ?_, fun st1 st2 execute t r => rfl, fun st1 st2 execute t r => rfl⟩
  · intro v hv
    cases hv
    cases h
    exact ⟨rfl, rfl⟩
  · intro e he
    cases he
    cases h
    exact ⟨rfl, rfl, ⟨_, rfl⟩⟩

/-- Claim C2 witness: with the concrete failed import "boom", both
constructors return the ImportError carrying "boom". -/
theorem construction_gates_on_availability_witness :
    (AsyncTransport.init (failedState "boom")).1 =
      Except.error (availErrMsg (some "boom")) ∧
    (SyncTransport.init (failedState "boom")).1 =
      Except.error (availErrMsg (some "boom")) := by
  have h := construction_gates_on_availability (ImportOutcome.failed "boom")
    (failedState "boom") rfl
  exact ⟨(h.2.1 "boom" rfl).1, (h.2.1 "boom" rfl).2.1⟩

/-- Claim C4: is_available reports exactly whether the native import
succeeded, and get_version_info mirrors it in rust_available, reports the
module version (the engine version on success), and carries the stringified
recorded failure reason exactly when initialization failed. -/
theorem queries_report_init_outcome (o : ImportOutcome) (st : ModuleState) (pv : String)
    (h : loadModule o = Except.ok st) :
    ((is_available st).1 = true ↔ ∃ v, o = ImportOutcome.ok v) ∧
    (get_version_info st pv).1.rust_available = (is_available st).1 ∧
    (get_version_info st pv).1.version = st.version ∧
    (∀ v, o = ImportOutcome.ok v → (get_version_info st pv).1.version = v) ∧
    (∀ e, o = ImportOutcome.failed e →
       (get_version_info st pv).1.import_error = some (pyStrOfExc (some e))) ∧
    ((∃ v, o = ImportOutcome.ok v) →
       (get_version_info st pv).1.import_error = none) := by
  cases o with
  | ok v =>
      cases h
      refine ⟨by simp [is_available], rfl, rfl, ?_, ?_, fun _ => rfl⟩
      · intro v2 hv
        cases hv
        rfl
      · intro e he
        cases he
  | failed e =>
      cases h
      refine ⟨by simp [is_available], rfl, rfl, ?_, ?_, ?_⟩
      · intro v2 hv
        cases hv
      · intro e2 he
        cases he
        rfl
      · rintro ⟨v, hv⟩
        cases hv

/-- Claim C4 witness: at the concrete failed import "nope" the queries report
unavailability and the recorded reason. -/
theorem queries_report_init_outcome_witness :
    ((is_available (failedState "nope")).1 = true ↔
      ∃ v, ImportOutcome.failed "nope" = ImportOutcome.ok v) ∧
    (get_version_info (failedState "nope") "3.11").1.import_error =
      some (pyStrOfExc (some "nope")) := by
  have h := queries_report_init_outcome (ImportOutcome.failed "nope")
    (failedState "nope") "3.11" rfl
  exact ⟨h.1, h.2.2.2.2.1 "nope" rfl⟩

/-- Claim C9: after import, every exported operation returns the module
globals unchanged — the initialization outcome is set once and only read. -/
theorem exported_ops_preserve_module_state (st : ModuleState) (pv : String)
    (execute : Request → ResponseDescriptor) (t : SyncTransport) (ta : AsyncTransport)
    (r : Request) :
    (is_available st).2 = st ∧
    (get_version_info st pv).2 = st ∧
    (AsyncTransport.init st).2 = st ∧
    (SyncTransport.init st).2 = st ∧
    (SyncTransport.handle_request st execute t r).2 = st ∧
    (AsyncTransport.handle_async_request st execute ta r).2 = st ∧
    (SyncTransport.close st t).2 = st ∧
    (AsyncTransport.aclose st ta).2 = st :=
  ⟨rfl, rfl, rfl, rfl, rfl, rfl, rfl, rfl⟩

/-- Claim C5: in both handle methods the conversion branch fires exactly when
the url is not a str or bytes or the method is not a str; when it fires the
forwarded request keeps the decoded method, the stringified url, the original
stream and extensions, and drops all headers; when it does not fire the
request passes through unchanged; and the handle methods forward exactly the
(possibly rebuilt) request to the native executor. -/
theorem conversion_branch_spec (r : Request) :
    (rebuildCond r = true ↔ (¬ r.url.isStrOrBytesP ∨ ¬ r.method.isStrP)) ∧
    (rebuildCond r = true →
       SyncTransport.forwardedRequest r =
         { method := decodeMethod r.method, url := PyUrl.pystr r.url.toStr,
           headers := [], stream := r.stream, extensions := r.extensions } ∧
       AsyncTransport.forwardedRequest r =
         { method := decodeMethod r.method, url := PyUrl.pystr r.url.toStr,
           headers := [], stream := r.stream, extensions := r.extensions }) ∧
    (∀ b, r.method = PyMethod.pybytes b → decodeMethod r.method = PyMethod.pystr b) ∧
    (rebuildCond r = false →
       SyncTransport.forwardedRequest r = r ∧ AsyncTransport.forwardedRequest r = r) ∧
    (∀ st execute t, (SyncTransport.handle_request st execute t r).1 =
       execute (SyncTransport.forwardedRequest r)) ∧
    (∀ st execute t, (AsyncTransport.handle_async_request st execute t r).1 =
       execute (AsyncTransport.forwardedRequest r)) := by
  refine ⟨?_, ?_, ?_, ?_, fun st execute t => rfl, fun st execute t => rfl⟩
  · cases hu : r.url <;> cases hm : r.method <;>
      simp [rebuildCond, PyUrl.isStrOrBytes, PyMethod.isStr, PyUrl.isStrOrBytesP,
        PyMethod.isStrP, hu, hm]
  · intro hb
    unfold SyncTransport.forwardedRequest AsyncTransport.forwardedRequest
    rw [if_pos hb]
    exact ⟨rfl, rfl⟩
  · intro b hb
    rw [hb]
    rfl
  · intro hb
    unfold SyncTransport.forwardedRequest AsyncTransport.forwardedRequest
    rw [if_neg (by simp [hb])]
    exact ⟨rfl, rfl⟩

/-- Claim C5 witness: on a concrete request with a URL object the branch
fires and both methods forward the rebuilt request with empty headers and
original stream and extensions. -/
theorem conversion_branch_spec_witness :
    rebuildCond branchDemoRequest = true ∧
    SyncTransport.forwardedRequest branchDemoRequest =
      { method := PyMethod.pystr "GET", url := PyUrl.pystr "http://127.0.0.1:8000",
        headers := [], stream := 7, extensions := [("timeout", "5")] } ∧
    AsyncTransport.forwardedRequest branchDemoRequest =
      { method := PyMethod.pystr "GET", url := PyUrl.pystr "http://127.0.0.1:8000",
        headers := [], stream := 7, extensions := [("timeout", "5")] } := by
  have h := conversion_branch_spec branchDemoRequest
  exact ⟨rfl, (h.2.1 rfl).1, (h.2.1 rfl).2⟩

/-- Claim C1: at the request shape the clients actually pass (bytes method,
URL object, one custom header — the shape the repository's own
test_custom_headers exercises) both handle methods forward a rebuilt request
whose header list is empty, so the request reaching the native extension is
not the one the caller supplied. -/
theorem headers_dropped_at_failing_input :
    (SyncTransport.forwardedRequest c1Request).headers = [] ∧
    (AsyncTransport.forwardedRequest c1Request).headers = [] ∧
    c1Request.headers = [("Custom-Header", "test-value")] ∧
    SyncTransport.forwardedRequest c1Request ≠ c1Request ∧
    (∀ st execute t, (SyncTransport.handle_request st execute t c1Request).1 =
       execute (SyncTransport.forwardedRequest c1Request)) ∧
    (∀ st execute t, (AsyncTransport.handle_async_request st execute t c1Request).1 =
       execute (AsyncTransport.forwardedRequest c1Request)) :=
  ⟨rfl, rfl, rfl, by decide, fun st execute t => rfl, fun st execute t => rfl⟩

/-- Claim C6: close and aclose are idempotent — a second close after the
first leaves the transport in the identical state, returns normally, and
closes no connection a second time (the engine state, including every
connection's lifecycle state, is unchanged). -/
theorem close_idempotent (st st2 : ModuleState) (t : SyncTransport) (ta : AsyncTransport) :
    (SyncTransport.close st2 (SyncTransport.close st t).1).1 =
      (SyncTransport.close st t).1 ∧
    (AsyncTransport.aclose st2 (AsyncTransport.aclose st ta).1).1 =
      (AsyncTransport.aclose st ta).1 ∧
    EngineState.close (EngineState.close t.native) = EngineState.close t.native := by
  refine ⟨?_, ?_, engineClose_idem t.native⟩
  · show ({ native := EngineState.close (EngineState.close t.native) } : SyncTransport) =
      { native := EngineState.close t.native }
    rw [engineClose_idem]
  · show ({ native := EngineState.close (EngineState.close ta.native) } : AsyncTransport) =
      { native := EngineState.close ta.native }
    rw [engineClose_idem]

/-- Claim C7: for every request and every behavior of the shared native
executor, the blocking and the cooperative entry point return a response
with the same status, the same headers and the same body-chunk
boundaries. -/
theorem sync_async_same_response (execute : Request → ResponseDescriptor)
    (st1 st2 : ModuleState) (ts : SyncTransport) (ta : AsyncTransport) (r : Request) :
    ((SyncTransport.handle_request st1 execute ts r).1.status =
       (AsyncTransport.handle_async_request st2 execute ta r).1.status) ∧
    ((SyncTransport.handle_request st1 execute ts r).1.headers =
       (AsyncTransport.handle_async_request st2 execute ta r).1.headers) ∧
    ((SyncTransport.handle_request st1 execute ts r).1.bodyChunks =
       (AsyncTransport.handle_async_request st2 execute ta r).1.bodyChunks) :=
  ⟨rfl, rfl, rfl⟩

/-- Claim C10: both transports are context managers — enter returns the very
transport, and the exit body performs exactly one close call whatever the
exception triple is, leaving the transport in the once-closed state. -/
theorem context_manager_behavior (st : ModuleState) (t : SyncTransport)
    (ta : AsyncTransport) (ty v tb : Option String) :
    SyncTransport.enter t = t ∧
    AsyncTransport.aenter ta = ta ∧
    (SyncTransport.exitBody ty v tb).count ShimOp.closeCall = 1 ∧
    (AsyncTransport.aexitBody ty v tb).count ShimOp.closeCall = 1 ∧
    SyncTransport.runOps st t (SyncTransport.exitBody ty v tb) =
      SyncTransport.close st t ∧
    AsyncTransport.runOps st ta (AsyncTransport.aexitBody ty v tb) =
      AsyncTransport.aclose st ta :=
  ⟨rfl, rfl, rfl, rfl, rfl, rfl⟩

/- ### Pool lemmas -/

lemma setConn_self (f : Nat → ConnState) (i : Nat) (st : ConnState) :
    setConn f i st i = st := by
  simp [setConn]

lemma setConn_other (f : Nat → ConnState) (i : Nat) (st : ConnState) (j : Nat)
    (h : j ≠ i) : setConn f i st j = f j := by
  simp [setConn, h]

/-- A successful popKey found an entry for the key, and the remainder is a
sublist of the original list. -/
lemma popKey_spec {k : PoolKey} :
    ∀ (l : List (PoolKey × Nat)) {c : Nat} {rest : List (PoolKey × Nat)},
      popKey k l = some (c, rest) → (k, c) ∈ l ∧ rest.Sublist l := by
  intro l
  induction l with
  | nil => intro c rest h; simp [popKey] at h
  | cons e tl ih =>
    intro c rest h
    simp only [popKey] at h
    by_cases he : e.1 = k
    · rw [if_pos he] at h
      injection h with h0
      injection h0 with ha hb
      subst ha
      subst hb
      constructor
      · rw [← he]
        exact List.mem_cons_self e tl
      · exact List.sublist_cons_self e tl
    · rw [if_neg he] at h
      cases hp : popKey k tl with
      | none => rw [hp] at h; simp at h
      | some p =>
        obtain ⟨c0, l0⟩ := p
        rw [hp] at h
        injection h with h0
        injection h0 with ha hb
        subst ha
        subst hb
        obtain ⟨hm, hs⟩ := ih hp
        exact ⟨List.mem_cons_of_mem e hm, hs.cons₂ e⟩

/-- With no duplicate ids, the popped id is gone from the remainder. -/
lemma popKey_not_mem {k : PoolKey} :
    ∀ (l : List (PoolKey × Nat)) {c : Nat} {rest : List (PoolKey × Nat)},
      (l.map Prod.snd).Nodup → popKey k l = some (c, rest) →
      c ∉ rest.map Prod.snd := by
  intro l
  induction l with
  | nil => intro c rest _ h; simp [popKey] at h
  | cons e tl ih =>
    intro c rest hnd h
    simp only [List.map_cons, List.nodup_cons] at hnd
    obtain ⟨he2, hnd2⟩ := hnd
    simp only [popKey] at h
    by_cases he : e.1 = k
    · rw [if_pos he] at h
      injection h with h0
      injection h0 with ha hb
      subst ha
      subst hb
      exact he2
    · rw [if_neg he] at h
      cases hp : popKey k tl with
      | none => rw [hp] at h; simp at h
      | some p =>
        obtain ⟨c0, l0⟩ := p
        rw [hp] at h
        injection h with h0
        injection h0 with ha hb
        subst ha
        subst hb
        have hmem : (k, c0) ∈ tl := (popKey_spec tl hp).1
        have hc0tl : c0 ∈ tl.map Prod.snd := List.mem_map_of_mem Prod.snd hmem
        intro hcmem
        rcases List.mem_cons.mp hcmem with h1 | h1
        · exact he2 (h1 ▸ hc0tl)
        · exact ih hnd2 hp h1

/-- A connection whose state is not Idle does not appear in the idle list. -/
lemma Inv.not_mem_ids {s : PoolState} (h : Inv s) {c : Nat}
    (hc : s.connState c ≠ ConnState.idle) : c ∉ s.idle.map Prod.snd := by
  intro hin
  obtain ⟨e, he, hc2⟩ := List.mem_map.mp hin
  exact hc (hc2 ▸ h.idle_idle e.1 e.2 he)

/-- Any connection whose state is not unborn was already established. -/
lemma Inv.lt_nextId {s : PoolState} (h : Inv s) {c : Nat}
    (hc : s.connState c ≠ ConnState.unborn) : c < s.nextId := by
  by_contra hge
  exact hc (h.unborn_ge c (Nat.le_of_not_lt hge))

lemma inv_empty : Inv PoolState.empty :=
  ⟨fun k c hm => absurd hm (List.not_mem_nil _), fun i _ => rfl, List.nodup_nil⟩

lemma inv_acquire {s : PoolState} (h : Inv s) (k : PoolKey) :
    Inv (acquirePool s k).2 := by
  cases hp : popKey k s.idle with
  | none =>
    simp only [acquirePool, hp]
    refine ⟨?_, ?_, h.ids_nodup⟩
    · intro k2 c2 hm
      have hm2 : (k2, c2) ∈ s.idle := hm
      have hc2 : s.connState c2 = ConnState.idle := h.idle_idle k2 c2 hm2
      have hne : c2 ≠ s.nextId := by
        intro he
        have hu := h.unborn_ge s.nextId (le_refl _)
        rw [he, hu] at hc2
        simp at hc2
      exact (setConn_other s.connState s.nextId ConnState.inUse c2 hne).trans hc2
    · intro i hi
      have hi2 : s.nextId + 1 ≤ i := hi
      have h1 : s.nextId ≤ i := Nat.le_of_succ_le hi2
      have hne : i ≠ s.nextId := by omega
      exact (setConn_other s.connState s.nextId ConnState.inUse i hne).trans
        (h.unborn_ge i h1)
  | some p =>
    obtain ⟨c, rest⟩ := p
    simp only [acquirePool, hp]
    obtain ⟨hmem, hsub⟩ := popKey_spec s.idle hp
    have hcnotin := popKey_not_mem s.idle h.ids_nodup hp
    refine ⟨?_, ?_, h.ids_nodup.sublist (hsub.map Prod.snd)⟩
    · intro k2 c2 hm
      have hm2 : (k2, c2) ∈ rest := hm
      have hc2in : (k2, c2) ∈ s.idle := hsub.mem hm2
      have hc2 : s.connState c2 = ConnState.idle := h.idle_idle k2 c2 hc2in
      have hne : c2 ≠ c := by
        intro he
        subst he
        exact hcnotin (List.mem_map_of_mem Prod.snd hm2)
      exact (setConn_other s.connState c ConnState.inUse c2 hne).trans hc2
    · intro i hi
      have hi2 : s.nextId ≤ i := hi
      have hclt : c < s.nextId := h.lt_nextId (by rw [h.idle_idle k c hmem]; simp)
      have hne : i ≠ c := by omega
      exact (setConn_other s.connState c ConnState.inUse i hne).trans
        (h.unborn_ge i hi2)

lemma inv_pushIdle {s : PoolState} (h : Inv s) (k : PoolKey) (c : Nat)
    (hc : s.connState c = ConnState.inUse) : Inv (pushIdle s k c) := by
  have hcnotin : c ∉ s.idle.map Prod.snd := h.not_mem_ids (by rw [hc]; simp)
  have hclt : c < s.nextId := h.lt_nextId (by rw [hc]; simp)
  refine ⟨?_, ?_, ?_⟩
  · intro k2 c2 hm
    dsimp only [pushIdle] at hm ⊢
    rcases List.mem_cons.mp hm with he | hm2
    · have hc2 : c2 = c := congrArg Prod.snd he
      rw [hc2, setConn_self]
    · have hne : c2 ≠ c := fun hh => hcnotin (hh ▸ List.mem_map_of_mem Prod.snd hm2)
      rw [setConn_other _ _ _ _ hne]
      exact h.idle_idle k2 c2 hm2
  · intro i hi
    dsimp only [pushIdle] at hi ⊢
    have hne : i ≠ c := by omega
    rw [setConn_other _ _ _ _ hne]
    exact h.unborn_ge i hi
  · dsimp only [pushIdle]
    simp only [List.map_cons, List.nodup_cons]
    exact ⟨hcnotin, h.ids_nodup⟩

lemma inv_capSweep {cap : Nat} {k : PoolKey} {s1 : PoolState} (h : Inv s1) :
    Inv (capSweep cap s1 k) := by
  unfold capSweep
  by_cases hlen : cap < (idleFor s1 k).length
  · rw [if_pos hlen]
    cases hp : popKey k s1.idle.reverse with
    | none => exact h
    | some p =>
      obtain ⟨d, rest⟩ := p
      have hrevnd : (s1.idle.reverse.map Prod.snd).Nodup := by
        rw [List.map_reverse]
        exact List.nodup_reverse.mpr h.ids_nodup
      obtain ⟨hdm, hdsub⟩ := popKey_spec s1.idle.reverse hp
      have hdmem : (k, d) ∈ s1.idle := List.mem_reverse.mp hdm
      have hdidle : s1.connState d = ConnState.idle := h.idle_idle k d hdmem
      have hrsub : rest.reverse.Sublist s1.idle := by
        have h2 := List.reverse_sublist.mpr hdsub
        rwa [List.reverse_reverse] at h2
      have hdnotin : d ∉ rest.map Prod.snd := popKey_not_mem s1.idle.reverse hrevnd hp
      refine ⟨?_, ?_, h.ids_nodup.sublist (hrsub.map Prod.snd)⟩
      · intro k2 c2 hm
        have hm2 : (k2, c2) ∈ rest.reverse := hm
        have hin : (k2, c2) ∈ s1.idle := hrsub.mem hm2
        have hne : c2 ≠ d := by
          intro he
          subst he
          apply hdnotin
          have hmm : c2 ∈ rest.reverse.map Prod.snd := List.mem_map_of_mem Prod.snd hm2
          rw [List.map_reverse, List.mem_reverse] at hmm
          exact hmm
        exact (setConn_other s1.connState d ConnState.closed c2 hne).trans
          (h.idle_idle k2 c2 hin)
      · intro i hi
        have hi2 : s1.nextId ≤ i := hi
        have hdlt : d < s1.nextId := h.lt_nextId (by rw [hdidle]; simp)
        have hne : i ≠ d := by omega
        exact (setConn_other s1.connState d ConnState.closed i hne).trans
          (h.unborn_ge i hi2)
  · rw [if_neg hlen]
    exact h

lemma inv_release {s : PoolState} (h : Inv s) (cap : Nat) (k : PoolKey) (c : Nat)
    (hc : s.connState c = ConnState.inUse) : Inv (releasePool cap s k c) :=
  inv_capSweep (inv_pushIdle h k c hc)

lemma inv_evict {s : PoolState} (h : Inv s) (c : Nat)
    (hc : s.connState c = ConnState.inUse) : Inv (evictPool s c) := by
  have hclt : c < s.nextId := h.lt_nextId (by rw [hc]; simp)
  refine ⟨?_, ?_, ?_⟩
  · intro k2 c2 hm
    dsimp only [evictPool] at hm ⊢
    obtain ⟨hin, hpred⟩ := List.mem_filter.mp hm
    have hne : c2 ≠ c := by simpa using hpred
    rw [setConn_other _ _ _ _ hne]
    exact h.idle_idle k2 c2 hin
  · intro i hi
    dsimp only [evictPool] at hi ⊢
    have hne : i ≠ c := by omega
    rw [setConn_other _ _ _ _ hne]
    exact h.unborn_ge i hi
  · dsimp only [evictPool]
    exact h.ids_nodup.sublist ((List.filter_sublist _).map Prod.snd)

lemma inv_closeAll {s : PoolState} (h : Inv s) : Inv (closeIdlePool s) := by
  refine ⟨?_, ?_, ?_⟩
  · intro k2 c2 hm
    simp [closeIdlePool] at hm
  · intro i hi
    dsimp only [closeIdlePool] at hi ⊢
    have hany : s.idle.any (fun e => e.2 == i) = false := by
      by_contra hb
      have htrue : s.idle.any (fun e => e.2 == i) = true := by
        cases hx : s.idle.any (fun e => e.2 == i) <;> simp_all
      obtain ⟨e, he, hei⟩ := List.any_eq_true.mp htrue
      rw [beq_iff_eq] at hei
      have hidle := h.idle_idle e.1 e.2 he
      rw [hei, h.unborn_ge i hi] at hidle
      simp at hidle
    simp only [hany]
    simp only [Bool.false_eq_true, if_false]
    exact h.unborn_ge i hi
  · simp [closeIdlePool]

lemma step_inv {cap : Nat} {s t : PoolState} (h : Inv s) (hst : Step cap s t) :
    Inv t := by
  cases hst with
  | acquire k => exact inv_acquire h k
  | release k c hc => exact inv_release h cap k c hc
  | evict c hc => exact inv_evict h c hc
  | closeAll => exact inv_closeAll h

lemma reachable_inv {cap : Nat} {s : PoolState} (h : Reachable cap s) : Inv s := by
  induction h with
  | init => exact inv_empty
  | step hr hst ih => exact step_inv ih hst

/-- If a connection's state is not Idle, the capacity sweep does not touch
it. -/
lemma capSweep_fixed {cap : Nat} {k : PoolKey} {s1 : PoolState} {c : Nat}
    (h : Inv s1) (hne : s1.connState c ≠ ConnState.idle) :
    (capSweep cap s1 k).connState c = s1.connState c := by
  unfold capSweep
  by_cases hlen : cap < (idleFor s1 k).length
  · rw [if_pos hlen]
    cases hp : popKey k s1.idle.reverse with
    | none => rfl
    | some p =>
      obtain ⟨d, rest⟩ := p
      have hdmem : (k, d) ∈ s1.idle := List.mem_reverse.mp (popKey_spec _ hp).1
      have hd : s1.connState d = ConnState.idle := h.idle_idle k d hdmem
      have hcd : c ≠ d := fun he => hne (he ▸ hd)
      exact setConn_other s1.connState d ConnState.closed c hcd
  · rw [if_neg hlen]

/-- A broken or closed connection's state is untouched by every pool
transition. -/
lemma step_dead_fixed {cap : Nat} {s t : PoolState} {c : Nat} (h : Inv s)
    (hst : Step cap s t)
    (hd : s.connState c = ConnState.broken ∨ s.connState c = ConnState.closed) :
    t.connState c = s.connState c := by
  have hcne_idle : s.connState c ≠ ConnState.idle := by
    rcases hd with h1 | h1 <;> rw [h1] <;> simp
  have hcne_inUse : s.connState c ≠ ConnState.inUse := by
    rcases hd with h1 | h1 <;> rw [h1] <;> simp
  have hcne_unborn : s.connState c ≠ ConnState.unborn := by
    rcases hd with h1 | h1 <;> rw [h1] <;> simp
  cases hst with
  | acquire k =>
    cases hp : popKey k s.idle with
    | none =>
      simp only [acquirePool, hp]
      have hne : c ≠ s.nextId :=
        fun he => hcne_unborn (he ▸ h.unborn_ge s.nextId (le_refl _))
      exact setConn_other s.connState s.nextId ConnState.inUse c hne
    | some p =>
      obtain ⟨c0, rest⟩ := p
      simp only [acquirePool, hp]
      have hc0 : s.connState c0 = ConnState.idle :=
        h.idle_idle k c0 (popKey_spec s.idle hp).1
      have hne : c ≠ c0 := fun he => hcne_idle (he ▸ hc0)
      exact setConn_other s.connState c0 ConnState.inUse c hne
  | release k c0 hc0 =>
    have hne0 : c ≠ c0 := fun he => hcne_inUse (he ▸ hc0)
    have hps : (pushIdle s k c0).connState c = s.connState c :=
      setConn_other s.connState c0 ConnState.idle c hne0
    have hpinv : Inv (pushIdle s k c0) := inv_pushIdle h k c0 hc0
    have hpne : (pushIdle s k c0).connState c ≠ ConnState.idle := by
      rw [hps]
      exact hcne_idle
    show (capSweep cap (pushIdle s k c0) k).connState c = s.connState c
    rw [capSweep_fixed hpinv hpne]
    exact hps
  | evict c0 hc0 =>
    have hne : c ≠ c0 := fun he => hcne_inUse (he ▸ hc0)
    exact setConn_other s.connState c0 ConnState.broken c hne
  | closeAll =>
    have hany : s.idle.any (fun e => e.2 == c) = false := by
      refine List.any_eq_false.mpr ?_
      intro e he
      simp only [beq_iff_eq]
      intro hei
      have hx := h.idle_idle e.1 e.2 he
      rw [hei] at hx
      exact hcne_idle hx
    have hgoal : (if s.idle.any (fun e => e.2 == c) = true then ConnState.closed
        else s.connState c) = s.connState c := by
      rw [hany]
      simp
    exact hgoal

/-- Along any run, a broken or closed connection stays exactly as it is and
the invariant is maintained. -/
lemma steps_dead_fixed {cap : Nat} {s s2 : PoolState} {c : Nat} (h : Inv s)
    (hst : Steps cap s s2)
    (hd : s.connState c = ConnState.broken ∨ s.connState c = ConnState.closed) :
    Inv s2 ∧ s2.connState c = s.connState c := by
  induction hst with
  | refl => exact ⟨h, rfl⟩
  | tail hst1 hstep ih =>
    obtain ⟨hinv, hfix⟩ := ih
    have hd2 := hd
    rw [← hfix] at hd2
    refine ⟨step_inv hinv hstep, ?_⟩
    rw [step_dead_fixed hinv hstep hd2]
    exact hfix

/-- Claim C8: in every reachable pool state, once a connection is Broken (or
was closed after eviction), it is in no idle set now or after any further
transitions, and no later acquire for any key ever returns it. -/
theorem broken_connection_never_reused (cap : Nat) (s s2 : PoolState) (c : Nat)
    (hreach : Reachable cap s)
    (hdead : s.connState c = ConnState.broken ∨ s.connState c = ConnState.closed)
    (hsteps : Steps cap s s2) :
    (∀ k, (k, c) ∉ s2.idle) ∧ (∀ k, (acquirePool s2 k).1 ≠ c) := by
  have hinv : Inv s := reachable_inv hreach
  obtain ⟨hinv2, hfix⟩ := steps_dead_fixed hinv hsteps hdead
  have hdead2 : s2.connState c = ConnState.broken ∨ s2.connState c = ConnState.closed := by
    rw [hfix]
    exact hdead
  have hne_idle : s2.connState c ≠ ConnState.idle := by
    rcases hdead2 with h1 | h1 <;> rw [h1] <;> simp
  have hne_unborn : s2.connState c ≠ ConnState.unborn := by
    rcases hdead2 with h1 | h1 <;> rw [h1] <;> simp
  constructor
  · intro k hk
    exact hne_idle (hinv2.idle_idle k c hk)
  · intro k
    cases hp : popKey k s2.idle with
    | none =>
      simp only [acquirePool, hp]
      intro he
      exact hne_unborn (he ▸ hinv2.unborn_ge s2.nextId (le_refl _))
    | some p =>
      obtain ⟨c0, rest⟩ := p
      simp only [acquirePool, hp]
      intro he
      exact hne_idle (he ▸ hinv2.idle_idle k c0 (popKey_spec s2.idle hp).1)

/-- Claim C8 witness: establish one connection for a concrete key, evict it
after a fault; the broken connection 0 is absent from the idle list and a
fresh acquire does not return it. -/
theorem broken_connection_never_reused_witness :
    (demoKey, 0) ∉ poolDemo2.idle ∧ (acquirePool poolDemo2 demoKey).1 ≠ 0 := by
  have h1 : poolDemo1.connState 0 = ConnState.inUse := rfl
  have hreach : Reachable 1 poolDemo2 :=
    Reachable.step
      (Reachable.step Reachable.init (Step.acquire PoolState.empty demoKey))
      (Step.evict poolDemo1 0 h1)
  have h := broken_connection_never_reused 1 poolDemo2 poolDemo2 0 hreach
    (Or.inl rfl) (Steps.refl poolDemo2)
  exact ⟨h.1 demoKey, h.2 demoKey⟩

end RustHttpx

